import Mathlib

/-
Verification of the host-side network-simulation components of FireSim:
the big-token flit codec (target-design/switch/flit.h), the switch core
(target-design/switch/switch.cc) and the NIC endpoint
(sim/src/main/cc/endpoints/simplenic.cc), shallowly embedded in Lean.

Buffers of `uint8_t` are modelled as functions `Nat → Nat` from byte
address to byte value (each value < 256 where that matters).  Machine
integers are modelled as `Nat`; every arithmetic operation in the sources
stays far below any overflow boundary for the configurations at hand, and
bit-level operations are translated with Lean's `&&&`, `|||`, `<<<`, `>>>`
on `Nat`, which agree with the C semantics on in-range values.
-/

namespace Flit

/-- TOKENS_PER_BIGTOKEN from switch.cc: `(BIGTOKEN_SIZE_BYTES*8)/(FLIT_SIZE_BITS+3)`
with `BIGTOKEN_SIZE_BITS = 512` and `FLIT_SIZE_BITS = 64`; evaluates to 7. -/
def TOKENS_PER_BIGTOKEN : Nat := (512 / 8 * 8) / (64 + 3)

/-- FLIT_SIZE_BITS from switch.cc (the K=7, 64-bit-flit build). -/
def FLIT_SIZE_BITS : Nat := 64

/-- FLIT_SIZE_BYTES from switch.cc. -/
def FLIT_SIZE_BYTES : Nat := FLIT_SIZE_BITS / 8

/-- BIGTOKEN_SIZE_BYTES from switch.cc (`BIGTOKEN_SIZE_BITS = 512`). -/
def BIGTOKEN_SIZE_BYTES : Nat := 512 / 8

/-- BROADCAST_ADJUSTED from flit.h. -/
def BROADCAST_ADJUSTED : Nat := 0xffff

/-- Embedding of `get_flit` (flit.h): returns the `FLIT_SIZE_BYTES` bytes of flit
`tokenid`, which live at `base*BIGTOKEN_SIZE_BYTES + FLIT_SIZE_BYTES*(offset+1)`. -/
def get_flit (recv_buf : Nat → Nat) (tokenid : Nat) : List Nat :=
  let base := tokenid / TOKENS_PER_BIGTOKEN
  let offset := tokenid % TOKENS_PER_BIGTOKEN
  (List.range FLIT_SIZE_BYTES).map
    (fun k => recv_buf (base * BIGTOKEN_SIZE_BYTES + FLIT_SIZE_BYTES * (offset + 1) + k))

/-- Embedding of `write_flit` (flit.h): memcpy of `FLIT_SIZE_BYTES` bytes of
`flit_buf` into the slot of flit `tokenid`. -/
def write_flit (send_buf : Nat → Nat) (tokenid : Nat) (flit_buf : List Nat) : Nat → Nat :=
  let base := tokenid / TOKENS_PER_BIGTOKEN
  let offset := tokenid % TOKENS_PER_BIGTOKEN
  let start := base * BIGTOKEN_SIZE_BYTES + FLIT_SIZE_BYTES * (offset + 1)
  fun a => if start ≤ a ∧ a < start + FLIT_SIZE_BYTES then flit_buf.getD (a - start) 0 else send_buf a

/-- Embedding of `write_valid_flit` (flit.h): OR the bit at
`bitoffset = (FLIT_SIZE_BITS - TOKENS_PER_BIGTOKEN*3) + offset*3` into byte
`bitoffset/8` of the big token (the debug printf has no buffer effect). -/
def write_valid_flit (send_buf : Nat → Nat) (tokenid : Nat) : Nat → Nat :=
  let base := tokenid / TOKENS_PER_BIGTOKEN
  let offset := tokenid % TOKENS_PER_BIGTOKEN
  let bitoffset := (FLIT_SIZE_BITS - TOKENS_PER_BIGTOKEN * 3) + offset * 3
  fun a =>
    if a = base * BIGTOKEN_SIZE_BYTES + bitoffset / 8
    then send_buf a ||| (1 <<< (bitoffset % 8))
    else send_buf a

/-- Embedding of `write_last_flit` (flit.h): OR `is_last` into the bit at
`bitoffset = (FLIT_SIZE_BITS - TOKENS_PER_BIGTOKEN*3) + 2 + offset*3` (the declared
`int` return value is never produced by the source, so the embedding returns the buffer). -/
def write_last_flit (send_buf : Nat → Nat) (tokenid : Nat) (is_last : Bool) : Nat → Nat :=
  let base := tokenid / TOKENS_PER_BIGTOKEN
  let offset := tokenid % TOKENS_PER_BIGTOKEN
  let bitoffset := (FLIT_SIZE_BITS - TOKENS_PER_BIGTOKEN * 3) + 2 + offset * 3
  fun a =>
    if a = base * BIGTOKEN_SIZE_BYTES + bitoffset / 8
    then send_buf a ||| ((if is_last then 1 else 0) <<< (bitoffset % 8))
    else send_buf a

/-- Embedding of `is_valid_flit` (flit.h).  The source returns
`*(lrv + bitoffset/8) >> (bitoffset%8)` converted to `bool`, i.e. the whole
shifted byte compared against zero — there is no `& 0x1` mask. -/
def is_valid_flit (recv_buf : Nat → Nat) (tokenid : Nat) : Bool :=
  let base := tokenid / TOKENS_PER_BIGTOKEN
  let offset := tokenid % TOKENS_PER_BIGTOKEN
  let bitoffset := (FLIT_SIZE_BITS - TOKENS_PER_BIGTOKEN * 3) + offset * 3
  (recv_buf (base * BIGTOKEN_SIZE_BYTES + bitoffset / 8) >>> (bitoffset % 8)) != 0

/-- Embedding of `is_last_flit` (flit.h); like `is_valid_flit`, the shifted byte
is converted to `bool` without masking to the low bit. -/
def is_last_flit (recv_buf : Nat → Nat) (tokenid : Nat) : Bool :=
  let base := tokenid / TOKENS_PER_BIGTOKEN
  let offset := tokenid % TOKENS_PER_BIGTOKEN
  let bitoffset := (FLIT_SIZE_BITS - TOKENS_PER_BIGTOKEN * 3) + 2 + offset * 3
  (recv_buf (base * BIGTOKEN_SIZE_BYTES + bitoffset / 8) >>> (bitoffset % 8)) != 0

/-- Bit offset (within its big token's leading word) of the valid bit of the flit
with token id `t`: `(FLIT_SIZE_BITS - TOKENS_PER_BIGTOKEN*3) + 3*(t % TOKENS_PER_BIGTOKEN)`. -/
def validBitOffset (t : Nat) : Nat :=
  (FLIT_SIZE_BITS - TOKENS_PER_BIGTOKEN * 3) + (t % TOKENS_PER_BIGTOKEN) * 3

/-- Observer for the single valid bit of flit `t` (the bit the spec says
`is_valid_flit` reads): bit `validBitOffset t % 8` of byte `validBitOffset t / 8`
of `t`'s big token. -/
def metaValidBit (buf : Nat → Nat) (t : Nat) : Bool :=
  Nat.testBit (buf (t / TOKENS_PER_BIGTOKEN * BIGTOKEN_SIZE_BYTES + validBitOffset t / 8))
    (validBitOffset t % 8)

/-- Observer for the single last bit of flit `t` (offset `validBitOffset t + 2`). -/
def metaLastBit (buf : Nat → Nat) (t : Nat) : Bool :=
  Nat.testBit (buf (t / TOKENS_PER_BIGTOKEN * BIGTOKEN_SIZE_BYTES + (validBitOffset t + 2) / 8))
    ((validBitOffset t + 2) % 8)

/-- Observer for the reserved middle bit of flit `t`'s meta triple
(offset `validBitOffset t + 1`); the codec never writes it. -/
def metaReservedBit (buf : Nat → Nat) (t : Nat) : Bool :=
  Nat.testBit (buf (t / TOKENS_PER_BIGTOKEN * BIGTOKEN_SIZE_BYTES + (validBitOffset t + 1) / 8))
    ((validBitOffset t + 1) % 8)

/-- Write sequence of the codec round-trip scenario: flit bytes, then valid bit,
then last bit, all at the same token id. -/
def writeToken (buf : Nat → Nat) (tokenid : Nat) (b : List Nat) (l : Bool) : Nat → Nat :=
  write_last_flit (write_valid_flit (write_flit buf tokenid b) tokenid) tokenid l

/-- Little-endian value of the first 64-bit word of a flit, as read by
`*((uint64_t*)flit_buf)` in `get_port_from_flit` on a little-endian host. -/
def leWord64 (bytes : List Nat) : Nat :=
  bytes.getD 0 0 ||| (bytes.getD 1 0 <<< 8) ||| (bytes.getD 2 0 <<< 16) |||
  (bytes.getD 3 0 <<< 24) ||| (bytes.getD 4 0 <<< 32) ||| (bytes.getD 5 0 <<< 40) |||
  (bytes.getD 6 0 <<< 48) ||| (bytes.getD 7 0 <<< 56)

/-- Embedding of `__builtin_bswap16` on a 16-bit value. -/
def bswap16 (x : Nat) : Nat := ((x &&& 0xFF) <<< 8) ||| ((x >>> 8) &&& 0xFF)

/-- Embedding of `get_port_from_flit` (flit.h).  The build-time constants
`NUMDOWNLINKS`, `NUMUPLINKS` and the static `mac2port` table come from the
generated `switchconfig.h` and are taken as parameters; `randval` stands for the
value returned by `rand()` in the random-uplink branch (`rand() % NUMUPLINKS`). -/
def get_port_from_flit (NUMDOWNLINKS NUMUPLINKS : Nat) (mac2port : Nat → Nat)
    (randval : Nat) (flit_buf : List Nat) : Nat :=
  let word0 := leWord64 flit_buf
  let is_multicast := (word0 >>> 16) &&& 0x1
  let flit_low := (word0 >>> 48) &&& 0xFFFF
  let sendport := bswap16 flit_low
  if is_multicast ≠ 0 then BROADCAST_ADJUSTED
  else
    let sendport1 := mac2port (sendport &&& 0xFFFF)
    if sendport1 = NUMDOWNLINKS then (randval % NUMUPLINKS) + NUMDOWNLINKS
    else sendport1

end Flit

namespace Sw

/-- Decoded view of one token slot of a port's input window: `valid` is
`is_valid_flit input_port_buf tokenno`, `last` is `is_last_flit input_port_buf tokenno`
and `flit` the `FLIT_SIZE_BYTES` bytes returned by `get_flit input_port_buf tokenno`;
phase 1 of `do_fast_switching` reads the window only through these three codec calls. -/
structure Token where
  valid : Bool
  last : Bool
  flit : List Nat
deriving DecidableEq, Repr

/-- Decoding of a port's raw input window through the codec, as phase 1 reads
it: token `tokenno` of the window is
`(is_valid_flit buf tokenno, is_last_flit buf tokenno, get_flit buf tokenno)`
for `tokenno ∈ [0, NUM_TOKENS)`. -/
def decodeWindow (input_port_buf : Nat → Nat) (NUM_TOKENS : Nat) : List Token :=
  (List.range NUM_TOKENS).map (fun tokenno =>
    { valid := Flit.is_valid_flit input_port_buf tokenno
      last := Flit.is_last_flit input_port_buf tokenno
      flit := Flit.get_flit input_port_buf tokenno })

/-- Embedding of `struct switchpacket` (declared in baseport.h, used throughout
switch.cc).  `dat` is the packet payload viewed as the list of its
`FLIT_SIZE_BYTES`-byte flits; the reassembly loop writes flit `amtwritten` at byte
offset `amtwritten * FLIT_SIZE_BYTES` and `amtwritten` always equals the number of
flits written, so the byte buffer is in bijection with this list. -/
structure switchpacket where
  timestamp : Nat
  sender : Nat
  dat : List (List Nat)
  amtwritten : Nat
  amtread : Nat
deriving DecidableEq, Repr

/-- One iteration of the phase-1 reassembly loop of `do_fast_switching`
(switch.cc, the `for (tokenno …)` body): on a valid flit, allocate a fresh
`switchpacket` with `timestamp = this_iter_cycles_start + tokenno + SWITCHLATENCY`
and `sender = port` if no reassembly is in progress, append the flit
(`memcpy` at index `amtwritten`, then `amtwritten++`), and on a last flit push
the packet onto the inputqueue and clear `input_in_progress`. -/
def phase1Step (port switchlat cyclesStart : Nat)
    (st : Option switchpacket × List switchpacket) (tokenno : Nat) (tok : Token) :
    Option switchpacket × List switchpacket :=
  if tok.valid then
    let sp0 : switchpacket :=
      match st.1 with
      | none =>
        { timestamp := cyclesStart + tokenno + switchlat, sender := port,
          dat := [], amtwritten := 0, amtread := 0 }
      | some sp => sp
    let sp1 := { sp0 with dat := sp0.dat ++ [tok.flit], amtwritten := sp0.amtwritten + 1 }
    if tok.last then (none, st.2 ++ [sp1]) else (some sp1, st.2)
  else st

/-- Phase-1 loop over the remaining tokens, starting at token number `tokenno`. -/
def phase1Go (port switchlat cyclesStart : Nat) :
    List (Nat × Token) → (Option switchpacket × List switchpacket) →
    Option switchpacket × List switchpacket
  | [], st => st
  | (tokenno, tok) :: rest, st =>
    phase1Go port switchlat cyclesStart rest (phase1Step port switchlat cyclesStart st tokenno tok)

/-- Phase 1 of `do_fast_switching` for one port: scan token numbers
`0, 1, …` over the decoded input window in increasing order, starting from no
reassembly in progress and an empty inputqueue. -/
def phase1 (port switchlat cyclesStart : Nat) (window : List Token) :
    Option switchpacket × List switchpacket :=
  phase1Go port switchlat cyclesStart window.enum (none, [])

/-- Specification-side segmentation of a window (from the spec's reassembly
description, for comparison with `phase1`): the valid flits are grouped into
maximal runs, a run being closed exactly by a valid flit whose last bit is set;
`acc` is the run currently in progress.  Returns the closed runs in order and
the trailing unfinished run. -/
def specRuns (acc : List (Nat × Token)) :
    List (Nat × Token) → List (List (Nat × Token)) × List (Nat × Token)
  | [] => ([], acc)
  | (i, tok) :: rest =>
    if tok.valid then
      if tok.last then
        let r := specRuns [] rest
        ((acc ++ [(i, tok)]) :: r.1, r.2)
      else specRuns (acc ++ [(i, tok)]) rest
    else specRuns acc rest

/-- Specification-side packet built from one run of valid flits (spec wording:
timestamp is ingress cycle of the first flit plus `SWITCHLATENCY`, sender is the
ingress port, and the payload is exactly the run's flits in order). -/
def specPacketOfRun (port switchlat cyclesStart : Nat) (run : List (Nat × Token)) :
    switchpacket :=
  { timestamp :=
      match run with
      | [] => 0
      | (i, _) :: _ => cyclesStart + i + switchlat
    sender := port
    dat := run.map (fun p => p.2.flit)
    amtwritten := run.length
    amtread := 0 }

/-- Specification-side in-progress packet corresponding to a (possibly empty)
unfinished run. -/
def specInProgress (port switchlat cyclesStart : Nat) (acc : List (Nat × Token)) :
    Option switchpacket :=
  match acc with
  | [] => none
  | _ :: _ => some (specPacketOfRun port switchlat cyclesStart acc)

/-- Bounds-checked variant of `phase1Step`: the `memcpy` into `sp->dat` at flit
index `amtwritten` is embedded as a checked write that returns `none` when
`amtwritten` is not below `datBound = ETH_MAX_WORDS + ETH_EXTRA_FLITS`, the
number of flits the `calloc` in switch.cc allocates for `dat`. -/
def phase1CheckedStep (datBound port switchlat cyclesStart : Nat)
    (st : Option switchpacket × List switchpacket) (tokenno : Nat) (tok : Token) :
    Option (Option switchpacket × List switchpacket) :=
  if tok.valid then
    let sp0 : switchpacket :=
      match st.1 with
      | none =>
        { timestamp := cyclesStart + tokenno + switchlat, sender := port,
          dat := [], amtwritten := 0, amtread := 0 }
      | some sp => sp
    if sp0.amtwritten < datBound then
      let sp1 := { sp0 with dat := sp0.dat ++ [tok.flit], amtwritten := sp0.amtwritten + 1 }
      some (if tok.last then (none, st.2 ++ [sp1]) else (some sp1, st.2))
    else none
  else some st

/-- Bounds-checked phase-1 loop. -/
def phase1CheckedGo (datBound port switchlat cyclesStart : Nat) :
    List (Nat × Token) → (Option switchpacket × List switchpacket) →
    Option (Option switchpacket × List switchpacket)
  | [], st => some st
  | (tokenno, tok) :: rest, st =>
    match phase1CheckedStep datBound port switchlat cyclesStart st tokenno tok with
    | none => none
    | some st1 => phase1CheckedGo datBound port switchlat cyclesStart rest st1

/-- Bounds-checked phase 1 for one port, from a fresh reassembly state. -/
def phase1Checked (datBound port switchlat cyclesStart : Nat) (window : List Token) :
    Option (Option switchpacket × List switchpacket) :=
  phase1CheckedGo datBound port switchlat cyclesStart window.enum (none, [])

/-- Extraction step of the routing phase's `std::priority_queue<tspacket>`:
`tspacket::operator<` (switch.cc) compares `timestamp > o.timestamp`, so
`top()` returns an element of least timestamp.  Among equal timestamps the C++
heap order is unspecified; this embedding returns the first-listed minimum. -/
def popMinTs : List switchpacket → Option (switchpacket × List switchpacket)
  | [] => none
  | p :: rest =>
    match popMinTs rest with
    | none => some (p, [])
    | some (m, r) => if p.timestamp ≤ m.timestamp then some (p, rest) else some (m, p :: r)

/-- Fuel-driven extraction of the whole priority queue in timestamp order (the
`while (!pqueue.empty())` loop of the routing phase): each `pop()` removes
exactly one element, so `l.length` units of fuel always suffice. -/
def drainFuel : Nat → List switchpacket → List switchpacket
  | 0, _ => []
  | fuel + 1, l =>
    match popMinTs l with
    | none => []
    | some (m, r) => m :: drainFuel fuel r

/-- Sequence of packets popped from the priority queue by the routing phase, in
pop order. -/
def drainPQueue (l : List switchpacket) : List switchpacket := drainFuel l.length l

/-- ADDUPLINK from switch.cc: `NUMUPLINKS > 0 ? 1 : 0`. -/
def ADDUPLINK (NUMUPLINKS : Nat) : Nat := if 0 < NUMUPLINKS then 1 else 0

/-- The broadcast fan-out loop of `do_fast_switching`: for
`i ∈ [0, NUMDOWNLINKS + ADDUPLINK)` in increasing order, if `i ≠ tsp->sender`,
push a deep copy of `tsp` (fresh `dat` with identical bytes, identical fields)
onto `ports[i]->outputqueue`.  `broadcastLoop outqs tsp n` is the state after the
iterations `i = 0, …, n-1`. -/
def broadcastLoop (outqs : Nat → List switchpacket) (tsp : switchpacket) :
    Nat → Nat → List switchpacket
  | 0 => outqs
  | n + 1 =>
    let qs := broadcastLoop outqs tsp n
    if n ≠ tsp.sender then (fun i => if i = n then qs i ++ [tsp] else qs i) else qs

/-- Routing of one packet popped from the priority queue (switch.cc):
look up the destination with `get_port_from_flit(tsp->dat, 0)`; on the broadcast
sentinel run the fan-out loop and free the original, otherwise push the packet
onto the destination port's outputqueue. -/
def routeOne (NUMDOWNLINKS NUMUPLINKS : Nat) (mac2port : Nat → Nat) (randval : Nat)
    (outqs : Nat → List switchpacket) (tsp : switchpacket) : Nat → List switchpacket :=
  let send_to_port := Flit.get_port_from_flit NUMDOWNLINKS NUMUPLINKS mac2port randval tsp.dat.flatten
  if send_to_port = Flit.BROADCAST_ADJUSTED then
    broadcastLoop outqs tsp (NUMDOWNLINKS + ADDUPLINK NUMUPLINKS)
  else
    fun i => if i = send_to_port then outqs i ++ [tsp] else outqs i

/-- Phase 3 of `do_fast_switching`: route the packets of the priority queue in
extraction order; `rng k` is the `rand()` value consumed by the `k`-th popped
packet if its lookup hits the any-uplink sentinel. -/
def phase3 (NUMDOWNLINKS NUMUPLINKS : Nat) (mac2port : Nat → Nat) (rng : Nat → Nat)
    (outqs : Nat → List switchpacket) (pq : List switchpacket) : Nat → List switchpacket :=
  ((drainPQueue pq).enum).foldl
    (fun qs it => routeOne NUMDOWNLINKS NUMUPLINKS mac2port (rng it.1) qs it.2) outqs

end Sw

namespace Nic

/-- MAX_BANDWIDTH from simplenic.cc. -/
def MAX_BANDWIDTH : Nat := 800

/-- MAX_BANDWIDTH_BITS from simplenic.cc. -/
def MAX_BANDWIDTH_BITS : Nat := 10

/-- BUF_WIDTH_BITS from simplenic.cc (bytes of DMA data per big token). -/
def BUF_WIDTH_BITS : Nat := 64

/-- TOKENS_PER_BIGTOKEN from simplenic.cc:
`PCIE_WIDTH_BITS / (FLIT_WIDTH_BITS + VAL_BITS)` = `512 / (256 + 3)` = 1. -/
def TOKENS_PER_BIGTOKEN : Nat := 512 / (256 + 3)

/-- SIMLATENCY_BT from simplenic.cc: `LINKLATENCY / TOKENS_PER_BIGTOKEN`. -/
def SIMLATENCY_BT (LINKLATENCY : Nat) : Nat := LINKLATENCY / TOKENS_PER_BIGTOKEN

/-- BUF_BYTES from simplenic.cc: `SIMLATENCY_BT * BUF_WIDTH_BITS`. -/
def BUF_BYTES (LINKLATENCY : Nat) : Nat := SIMLATENCY_BT LINKLATENCY * BUF_WIDTH_BITS

/-- Fuel-driven embedding of the `while (b > 0)` Euclid loop in `simplify_frac`
(simplenic.cc); the fuel only drives termination, `b` strictly decreases each
iteration so `b + 1` units always suffice. -/
def gcd_fuel : Nat → Nat → Nat → Nat
  | 0, a, _ => a
  | fuel + 1, a, b => if b = 0 then a else gcd_fuel fuel b (a % b)

/-- Result `a` of the GCD loop of `simplify_frac` on inputs `(n, d)`. -/
def gcd_loop (n d : Nat) : Nat := gcd_fuel (d + 1) n d

/-- Embedding of `simplify_frac` (simplenic.cc): reduce the fraction `n / d` by
the greatest common divisor, returning `(*nn, *dd)`. -/
def simplify_frac (n d : Nat) : Nat × Nat :=
  let a := gcd_loop n d
  (n / a, d / a)

/-- Value written to the `rlimit_settings` MMIO register by `simplenic_t::init`:
`(rlimit_inc << (2*MAX_BANDWIDTH_BITS)) | ((rlimit_period - 1) << MAX_BANDWIDTH_BITS) | rlimit_size`,
where `(rlimit_inc, rlimit_period) = simplify_frac netbw MAX_BANDWIDTH` and
`rlimit_size = netburst` as set by the constructor. -/
def rlimit_settings (netbw netburst : Nat) : Nat :=
  let inc := (simplify_frac netbw MAX_BANDWIDTH).1
  let period := (simplify_frac netbw MAX_BANDWIDTH).2
  (inc <<< (2 * MAX_BANDWIDTH_BITS)) ||| ((period - 1) <<< MAX_BANDWIDTH_BITS) ||| netburst

/-- Relevant state mutated by the `+macaddrN=` branch of the `simplenic_t`
constructor argument loop: the little-endian MAC accumulator and the lines
printed to stderr. -/
structure CtorState where
  mac_lendian : Nat
  stderr_lines : List String
deriving DecidableEq, Repr

/-- Little-endian packing of six parsed MAC octets, as in the constructor:
`mac_lendian |= ((uint64_t)(uint8_t)mac_octets[i]) << (8*i)`. -/
def macOctetsLendian (octets : List Nat) : Nat :=
  (List.range 6).foldl (fun acc i => acc ||| ((octets.getD i 0 % 256) <<< (8 * i))) 0

/-- Embedding of the `+macaddrN=` branch of the `simplenic_t` constructor
(simplenic.cc lines 80-99).  `scan` is the result of the libc
`sscanf(macstring, "%x:%x:%x:%x:%x:%x%c", …)` call: `some octets` when exactly
the six hex octets matched (sscanf returned 6), `none` otherwise.  The result is
`Except.error code` if the branch terminates the process with `exit(code)`, and
`Except.ok` with the updated state if the constructor keeps running. -/
def macaddrArgStep (scan : Option (List Nat)) (st : CtorState) : Except Nat CtorState :=
  match scan with
  | some octets => Except.ok { st with mac_lendian := st.mac_lendian ||| macOctetsLendian octets }
  | none =>
    Except.ok { st with
      stderr_lines := st.stderr_lines ++ ["INVALID MAC ADDRESS SUPPLIED WITH +macaddrN="] }

/-- State of `simplenic_t::tick` visible to one inner loop iteration: the
double-buffer index and the two pairs of shared-memory buffers (byte-addressed,
each of size `BUF_BYTES + 1` with the ready sentinel at offset `BUF_BYTES`).
The non-loopback configuration is modelled: `pcis_read_bufs` and
`pcis_write_bufs` are distinct regions. -/
structure nicstate where
  currentround : Nat
  pcis_read_bufs : Nat → Nat → Nat
  pcis_write_bufs : Nat → Nat → Nat

/-- Environment of one `tick` inner iteration: MMIO counter reads, the bytes
delivered by the DMA `pull`, the byte counts reported by `pull` and `push`, and
whether the busy-poll on the peer sentinel observes it set (the poll spins until
the peer writes 1; `peer_ready = false` models a never-ready peer). -/
structure tickenv where
  outgoing_count : Nat
  incoming_count : Nat
  pull_data : Nat → Nat
  pull_ret : Nat
  push_ret : Nat
  peer_ready : Bool

/-- Control outcome of one `tick` inner iteration. -/
inductive tickresult where
  | notReady
  | exit1
  | blocked
  | advanced
deriving DecidableEq, Repr

/-- DMA operations issued during an iteration, in order. -/
inductive dmaop where
  | pull (nbytes : Nat)
  | push (nbytes : Nat)
deriving DecidableEq, Repr

/-- One inner iteration of `simplenic_t::tick` (simplenic.cc lines 226-339):
read `outgoing_count` and `SIMLATENCY_BT - incoming_count`, take the minimum; if
it is not a full window, return.  Otherwise pull `BUF_WIDTH_BITS * tokens_this_round`
bytes into the current read buffer, set its ready sentinel to 1, exit(1) on a
short pull, busy-poll the current write buffer's sentinel unless in loopback,
push the write buffer, clear its sentinel to 0, exit(1) on a short push, and
flip `currentround = (currentround + 1) % 2`. -/
def tick_iter (LINKLATENCY : Nat) (loopback : Bool) (env : tickenv) (st : nicstate) :
    tickresult × nicstate × List dmaop :=
  let output_tokens_available := env.outgoing_count
  let input_token_capacity := SIMLATENCY_BT LINKLATENCY - env.incoming_count
  let tokens_this_round := min output_tokens_available input_token_capacity
  if tokens_this_round ≠ SIMLATENCY_BT LINKLATENCY then (tickresult.notReady, st, [])
  else
    let nbytes := BUF_WIDTH_BITS * tokens_this_round
    let st1 : nicstate :=
      { st with pcis_read_bufs := fun j =>
          if j = st.currentround
          then fun a => if a < nbytes then env.pull_data a else st.pcis_read_bufs j a
          else st.pcis_read_bufs j }
    let st2 : nicstate :=
      { st1 with pcis_read_bufs := fun j =>
          if j = st.currentround
          then fun a => if a = BUF_BYTES LINKLATENCY then 1 else st1.pcis_read_bufs j a
          else st1.pcis_read_bufs j }
    if env.pull_ret ≠ tokens_this_round * BUF_WIDTH_BITS then
      (tickresult.exit1, st2, [dmaop.pull nbytes])
    else if ¬ loopback ∧ env.peer_ready = false then
      (tickresult.blocked, st2, [dmaop.pull nbytes])
    else
      let st3 : nicstate :=
        { st2 with pcis_write_bufs := fun j =>
            if j = st.currentround
            then fun a => if a = BUF_BYTES LINKLATENCY then 0 else st2.pcis_write_bufs j a
            else st2.pcis_write_bufs j }
      if env.push_ret ≠ tokens_this_round * BUF_WIDTH_BITS then
        (tickresult.exit1, st3, [dmaop.pull nbytes, dmaop.push nbytes])
      else
        (tickresult.advanced, { st3 with currentround := (st3.currentround + 1) % 2 },
          [dmaop.pull nbytes, dmaop.push nbytes])

end Nic
section BitHelpers

theorem orShiftRight (x y k : Nat) : (x ||| y) >>> k = (x >>> k) ||| (y >>> k) := by
  apply Nat.eq_of_testBit_eq; intro i
  simp [Nat.testBit_shiftRight, Nat.testBit_or]

theorem or_left_ne_zero (x y : Nat) (h : x ≠ 0) : x ||| y ≠ 0 := by
  intro hc
  apply h
  apply Nat.eq_of_testBit_eq
  intro i
  have hb := congrArg (fun z => Nat.testBit z i) hc
  simp only [Nat.testBit_or, Nat.zero_testBit, Bool.or_eq_false_iff] at hb
  simp [hb.1]

theorem or_right_ne_zero (x y : Nat) (h : y ≠ 0) : x ||| y ≠ 0 := by
  intro hc
  apply h
  apply Nat.eq_of_testBit_eq
  intro i
  have hb := congrArg (fun z => Nat.testBit z i) hc
  simp only [Nat.testBit_or, Nat.zero_testBit, Bool.or_eq_false_iff] at hb
  simp [hb.2]

theorem shiftLeft_shiftRight_self (k : Nat) : (1 <<< k) >>> k = 1 := by
  rw [Nat.one_shiftLeft, Nat.shiftRight_eq_div_pow]
  exact Nat.div_self (Nat.pos_pow_of_pos k (by decide))

theorem shiftLeft_shiftRight_zero (j k : Nat) (h : j < k) : (1 <<< j) >>> k = 0 := by
  rw [Nat.one_shiftLeft, Nat.shiftRight_eq_div_pow]
  exact Nat.div_eq_of_lt (Nat.pow_lt_pow_right (by decide) h)

theorem byte_shiftRight_eq_zero (x k : Nat) (hx : x < 256)
    (h : ∀ j, k ≤ j → j < 8 → x.testBit j = false) : x >>> k = 0 := by
  apply Nat.eq_of_testBit_eq; intro i
  rw [Nat.testBit_shiftRight, Nat.zero_testBit]
  by_cases hc : k + i < 8
  · exact h _ (Nat.le_add_right _ _) hc
  · apply Nat.testBit_lt_two_pow
    calc x < 256 := hx
    _ = 2 ^ 8 := by norm_num
    _ ≤ 2 ^ (k + i) := Nat.pow_le_pow_right (by decide) (by omega)

theorem testBit_or_pow (x k j : Nat) :
    (x ||| (1 <<< k)).testBit j = (x.testBit j || decide (k = j)) := by
  rw [Nat.testBit_or, Nat.one_shiftLeft]
  by_cases h : k = j
  · subst h; simp [Nat.testBit_two_pow_self]
  · simp [h, Nat.testBit_two_pow_of_ne h]

theorem or_lt_256 (x y : Nat) (hx : x < 256) (hy : y < 256) : x ||| y < 256 := by
  have := Nat.or_lt_two_pow (n := 8) (by simpa using hx) (by simpa using hy)
  simpa using this

end BitHelpers

theorem TPB_eq : Flit.TOKENS_PER_BIGTOKEN = 7 := rfl

theorem or_pow_shiftRight_ne_zero (x k : Nat) : (x ||| 1 <<< k) >>> k ≠ 0 := by
  rw [orShiftRight, shiftLeft_shiftRight_self]
  exact or_right_ne_zero _ _ one_ne_zero

theorem is_valid_writeToken (buf : Nat → Nat) (B o : Nat) (ho : o < 7)
    (b : List Nat) (l : Bool) :
    Flit.is_valid_flit (Flit.writeToken buf (7*B+o) b l) (7*B+o) = true := by
  have hdiv : (7*B+o) / 7 = B := by omega
  have hmod : (7*B+o) % 7 = o := by omega
  simp only [Flit.is_valid_flit, Flit.writeToken, Flit.write_last_flit, Flit.write_valid_flit,
    Flit.write_flit, TPB_eq, Flit.FLIT_SIZE_BITS, Flit.FLIT_SIZE_BYTES, Flit.BIGTOKEN_SIZE_BYTES,
    hdiv, hmod]
  norm_num
  split_ifs with h1 h2 h3 <;> try omega
  all_goals first
    | exact or_pow_shiftRight_ne_zero _ _
    | (rw [orShiftRight]; exact or_left_ne_zero _ _ (or_pow_shiftRight_ne_zero _ _))

theorem metaValidBit_eq (buf : Nat → Nat) (B q : Nat) (hq : q < 7) :
    Flit.metaValidBit buf (7*B+q) = Nat.testBit (buf (B*64 + (43+q*3)/8)) ((43+q*3)%8) := by
  have hdiv : (7*B+q) / 7 = B := by omega
  have hmod : (7*B+q) % 7 = q := by omega
  simp only [Flit.metaValidBit, Flit.validBitOffset, TPB_eq, Flit.FLIT_SIZE_BITS,
    Flit.BIGTOKEN_SIZE_BYTES, hdiv, hmod]

theorem metaLastBit_eq (buf : Nat → Nat) (B q : Nat) (hq : q < 7) :
    Flit.metaLastBit buf (7*B+q) = Nat.testBit (buf (B*64 + (45+q*3)/8)) ((45+q*3)%8) := by
  have hdiv : (7*B+q) / 7 = B := by omega
  have hmod : (7*B+q) % 7 = q := by omega
  simp only [Flit.metaLastBit, Flit.validBitOffset, TPB_eq, Flit.FLIT_SIZE_BITS,
    Flit.BIGTOKEN_SIZE_BYTES, hdiv, hmod]
  have e : 43 + q * 3 + 2 = 45 + q * 3 := by omega
  rw [e]

theorem metaReservedBit_eq (buf : Nat → Nat) (B q : Nat) (hq : q < 7) :
    Flit.metaReservedBit buf (7*B+q) = Nat.testBit (buf (B*64 + (44+q*3)/8)) ((44+q*3)%8) := by
  have hdiv : (7*B+q) / 7 = B := by omega
  have hmod : (7*B+q) % 7 = q := by omega
  simp only [Flit.metaReservedBit, Flit.validBitOffset, TPB_eq, Flit.FLIT_SIZE_BITS,
    Flit.BIGTOKEN_SIZE_BYTES, hdiv, hmod]
  have e : 43 + q * 3 + 1 = 44 + q * 3 := by omega
  rw [e]

theorem meta_word_bit_false (buf : Nat → Nat) (N B p : Nat) (hB : B < N)
    (hp1 : 43 ≤ p) (hp2 : p < 64)
    (hclear : ∀ u, u < N * 7 → Flit.metaValidBit buf u = false ∧
      Flit.metaLastBit buf u = false ∧ Flit.metaReservedBit buf u = false) :
    Nat.testBit (buf (B * 64 + p / 8)) (p % 8) = false := by
  obtain ⟨q, r, hq, hr, hp⟩ : ∃ q r, q < 7 ∧ r < 3 ∧ p = 43 + q*3 + r :=
    ⟨(p-43)/3, (p-43)%3, by omega, by omega, by omega⟩
  have h3 := hclear (7*B + q) (by omega)
  rw [metaValidBit_eq _ _ _ hq] at h3
  rw [metaLastBit_eq _ _ _ hq] at h3
  rw [metaReservedBit_eq _ _ _ hq] at h3
  subst hp
  have hr3 : r = 0 ∨ r = 1 ∨ r = 2 := by omega
  rcases hr3 with rfl | rfl | rfl
  · simpa using h3.1
  · have e1 : (43 + q * 3 + 1) = 44 + q * 3 := by omega
    rw [e1]
    exact h3.2.2
  · have e2 : (43 + q * 3 + 2) = 45 + q * 3 := by omega
    rw [e2]
    exact h3.2.1

theorem get_flit_writeToken (buf : Nat → Nat) (B o : Nat) (ho : o < 7)
    (b : List Nat) (hb : b.length = 8) (l : Bool) :
    Flit.get_flit (Flit.writeToken buf (7*B+o) b l) (7*B+o) = b := by
  have hdiv : (7*B+o) / 7 = B := by omega
  have hmod : (7*B+o) % 7 = o := by omega
  simp only [Flit.get_flit, Flit.writeToken, Flit.write_last_flit, Flit.write_valid_flit,
    Flit.write_flit, TPB_eq, Flit.FLIT_SIZE_BITS, Flit.FLIT_SIZE_BYTES, Flit.BIGTOKEN_SIZE_BYTES,
    hdiv, hmod]
  apply List.ext_getElem (by simpa using hb.symm)
  intro i h1 h2
  simp only [List.getElem_map, List.getElem_range]
  have h8 : i < 8 := by simpa using h1
  split_ifs with hL hV hD <;> try (exfalso; omega)
  · have : B * 64 + 8 * (o + 1) + i - (B * 64 + 8 * (o + 1)) = i := by omega
    rw [this]
    exact List.getD_eq_getElem b 0 (by omega)

theorem is_last_writeToken_true (buf : Nat → Nat) (B o : Nat) (ho : o < 7) (b : List Nat) :
    Flit.is_last_flit (Flit.writeToken buf (7*B+o) b true) (7*B+o) = true := by
  have hdiv : (7*B+o) / 7 = B := by omega
  have hmod : (7*B+o) % 7 = o := by omega
  simp only [Flit.is_last_flit, Flit.writeToken, Flit.write_last_flit, Flit.write_valid_flit,
    Flit.write_flit, TPB_eq, Flit.FLIT_SIZE_BITS, Flit.FLIT_SIZE_BYTES, Flit.BIGTOKEN_SIZE_BYTES,
    hdiv, hmod]
  norm_num
  split_ifs with h1 h2 <;> try (exfalso; omega)
  all_goals exact or_pow_shiftRight_ne_zero _ _

theorem is_last_writeToken_false (buf : Nat → Nat) (N B o : Nat) (hB : B < N) (ho : o < 7)
    (b : List Nat) (hbyte : ∀ a, buf a < 256)
    (hclear : ∀ u, u < N * 7 → Flit.metaValidBit buf u = false ∧
      Flit.metaLastBit buf u = false ∧ Flit.metaReservedBit buf u = false) :
    Flit.is_last_flit (Flit.writeToken buf (7*B+o) b false) (7*B+o) = false := by
  have hdiv : (7*B+o) / 7 = B := by omega
  have hmod : (7*B+o) % 7 = o := by omega
  have hbits : ∀ j, (45 + o * 3) % 8 ≤ j → j < 8 →
      Nat.testBit (buf (B * 64 + (45 + o * 3) / 8)) j = false := by
    intro j hk hj
    have h0 := meta_word_bit_false buf N B (8 * ((45 + o * 3) / 8) + j) hB (by omega) (by omega) hclear
    have e1 : (8 * ((45 + o * 3) / 8) + j) / 8 = (45 + o * 3) / 8 := by omega
    have e2 : (8 * ((45 + o * 3) / 8) + j) % 8 = j := by omega
    rw [e1, e2] at h0
    exact h0
  simp only [Flit.is_last_flit, Flit.writeToken, Flit.write_last_flit, Flit.write_valid_flit,
    Flit.write_flit, TPB_eq, Flit.FLIT_SIZE_BITS, Flit.FLIT_SIZE_BYTES, Flit.BIGTOKEN_SIZE_BYTES,
    hdiv, hmod]
  norm_num
  split_ifs with h1 h2 <;> try (exfalso; omega)
  · -- valid bit was written into the same byte: shift it away
    rw [orShiftRight]
    have hv : (1 <<< ((43 + o * 3) % 8)) >>> ((45 + o * 3) % 8) = 0 := by
      apply shiftLeft_shiftRight_zero
      omega
    rw [hv]
    have hbuf : buf (B * 64 + (45 + o * 3) / 8) >>> ((45 + o * 3) % 8) = 0 := by
      apply byte_shiftRight_eq_zero _ _ (hbyte _)
      intro j hk hj
      exact hbits j hk hj
    rw [hbuf]
    simp
  · apply byte_shiftRight_eq_zero _ _ (hbyte _)
    intro j hk hj
    exact hbits j hk hj

theorem testBit_or_pow_ne (x k j : Nat) (h : k ≠ j) : (x ||| (1 <<< k)).testBit j = x.testBit j := by
  rw [testBit_or_pow]
  simp [h]

set_option maxHeartbeats 1000000 in
theorem meta_other_writeToken (buf : Nat → Nat) (B o : Nat) (ho : o < 7)
    (b : List Nat) (l : Bool) (u : Nat) (hne : u ≠ 7*B+o) :
    Flit.metaValidBit (Flit.writeToken buf (7*B+o) b l) u = Flit.metaValidBit buf u ∧
    Flit.metaLastBit (Flit.writeToken buf (7*B+o) b l) u = Flit.metaLastBit buf u := by
  have hdiv : (7*B+o) / 7 = B := by omega
  have hmod : (7*B+o) % 7 = o := by omega
  obtain ⟨B', q, hq, rfl⟩ : ∃ B' q, q < 7 ∧ u = 7*B'+q :=
    ⟨u/7, u%7, Nat.mod_lt _ (by norm_num), by omega⟩
  constructor
  · rw [metaValidBit_eq _ _ _ hq, metaValidBit_eq _ _ _ hq]
    simp only [Flit.writeToken, Flit.write_last_flit, Flit.write_valid_flit,
      Flit.write_flit, TPB_eq, Flit.FLIT_SIZE_BITS, Flit.FLIT_SIZE_BYTES,
      Flit.BIGTOKEN_SIZE_BYTES, hdiv, hmod]
    norm_num
    split_ifs with h1 h2 h3 h4 h5 h6 h7 h8 h9 h10 <;> try (exfalso; omega)
    all_goals try simp only [Nat.zero_shiftLeft, Nat.or_zero]
    all_goals try rfl
    all_goals (
      repeat rw [testBit_or_pow]
      cases hx : Nat.testBit (buf (B' * 64 + (43 + q * 3) / 8)) ((43 + q * 3) % 8) <;>
        simp [hx] <;> omega)
  · rw [metaLastBit_eq _ _ _ hq, metaLastBit_eq _ _ _ hq]
    simp only [Flit.writeToken, Flit.write_last_flit, Flit.write_valid_flit,
      Flit.write_flit, TPB_eq, Flit.FLIT_SIZE_BITS, Flit.FLIT_SIZE_BYTES,
      Flit.BIGTOKEN_SIZE_BYTES, hdiv, hmod]
    norm_num
    split_ifs with h1 h2 h3 h4 h5 h6 h7 h8 h9 h10 <;> try (exfalso; omega)
    all_goals try simp only [Nat.zero_shiftLeft, Nat.or_zero]
    all_goals try rfl
    all_goals (
      repeat rw [testBit_or_pow]
      cases hx : Nat.testBit (buf (B' * 64 + (45 + q * 3) / 8)) ((45 + q * 3) % 8) <;>
        simp [hx] <;> omega)

/-- C1 (amended): for every byte buffer of `N` big tokens whose valid, last and
reserved meta bits are all zero, every in-range token id, every
`FLIT_SIZE_BYTES`-byte string `b` and boolean `l`, after
`write_flit`, `write_valid_flit`, `write_last_flit l`, reading back gives
`get_flit = b`, `is_valid_flit = true`, `is_last_flit = l`, and the valid and
last bits of every other token id in the buffer remain 0. -/
theorem c1_codec_roundtrip (buf : Nat → Nat) (N t : Nat) (b : List Nat) (l : Bool)
    (ht : t < N * Flit.TOKENS_PER_BIGTOKEN)
    (hb : b.length = Flit.FLIT_SIZE_BYTES)
    (hbyte : ∀ a, buf a < 256)
    (hclear : ∀ u, u < N * Flit.TOKENS_PER_BIGTOKEN →
      Flit.metaValidBit buf u = false ∧ Flit.metaLastBit buf u = false ∧
      Flit.metaReservedBit buf u = false) :
    Flit.get_flit (Flit.writeToken buf t b l) t = b
    ∧ Flit.is_valid_flit (Flit.writeToken buf t b l) t = true
    ∧ Flit.is_last_flit (Flit.writeToken buf t b l) t = l
    ∧ ∀ u, u < N * Flit.TOKENS_PER_BIGTOKEN → u ≠ t →
        Flit.metaValidBit (Flit.writeToken buf t b l) u = false ∧
        Flit.metaLastBit (Flit.writeToken buf t b l) u = false := by
  rw [TPB_eq] at ht hclear
  obtain ⟨B, o, ho, rfl⟩ : ∃ B o, o < 7 ∧ t = 7*B+o :=
    ⟨t/7, t%7, Nat.mod_lt _ (by norm_num), by omega⟩
  have hB : B < N := by omega
  have hb8 : b.length = 8 := hb
  refine ⟨get_flit_writeToken buf B o ho b hb8 l, is_valid_writeToken buf B o ho b l, ?_, ?_⟩
  · cases l
    · exact is_last_writeToken_false buf N B o hB ho b hbyte hclear
    · exact is_last_writeToken_true buf B o ho b
  · intro u hu hneu
    have h2 := meta_other_writeToken buf B o ho b l u hneu
    have h3 := hclear u hu
    exact ⟨h2.1.trans h3.1, h2.2.trans h3.2.1⟩

/-- C1 witness: concrete instance of the amended round trip at token id 10 of a
zeroed two-big-token buffer with the scenario bytes and `last = true`. -/
theorem c1_codec_roundtrip_witness :
    Flit.get_flit (Flit.writeToken (fun _ => 0) 10 [222,173,190,239,0,0,0,0] true) 10
        = [222,173,190,239,0,0,0,0]
    ∧ Flit.is_valid_flit (Flit.writeToken (fun _ => 0) 10 [222,173,190,239,0,0,0,0] true) 10 = true
    ∧ Flit.is_last_flit (Flit.writeToken (fun _ => 0) 10 [222,173,190,239,0,0,0,0] true) 10 = true := by
  have h := c1_codec_roundtrip (fun _ => 0) 2 10 [222,173,190,239,0,0,0,0] true
    (by decide) (by decide) (fun _ => Nat.zero_lt_succ 255) (by decide)
  exact ⟨h.1, h.2.1, h.2.2.1⟩

/-- C1 counterexample to the claim as stated: the buffer below has all valid and
last meta bits zero (and bytes in range), yet after writing flit bytes, the valid
bit and `last = false` at token id 0, `is_last_flit` reads back `true`, because
the unmasked byte shift in `is_last_flit` also sees the reserved bit at offset 47
which the hypothesis of the claim leaves unconstrained. -/
theorem c1_codec_roundtrip_counterexample :
    (∀ u, u < 1 * Flit.TOKENS_PER_BIGTOKEN →
      Flit.metaValidBit (fun a => if a = 5 then 128 else 0) u = false ∧
      Flit.metaLastBit (fun a => if a = 5 then 128 else 0) u = false)
    ∧ (∀ a, a < 64 → (if a = 5 then 128 else 0) < 256)
    ∧ Flit.is_last_flit
        (Flit.writeToken (fun a => if a = 5 then 128 else 0) 0 [222,173,190,239,0,0,0,0] false)
        0 = true := by
  exact ⟨by decide, by decide, by decide⟩

/-- C6: the meta-bit observers are not exact.  With only the reserved bit at
offset 44 set, `is_valid_flit` at token id 0 returns `true` although the valid
bit (offset 43) is clear; with only the valid bit of token id 1 (offset 46) set,
`is_last_flit` at token id 0 returns `true` although the last bit (offset 45) is
clear: the source returns the shifted byte without the `& 0x1` mask, so any
higher bit in the same byte leaks into the result. -/
theorem c6_observer_unmasked :
    Flit.is_valid_flit (fun a => if a = 5 then 16 else 0) 0 = true
    ∧ Flit.metaValidBit (fun a => if a = 5 then 16 else 0) 0 = false
    ∧ Flit.is_last_flit (fun a => if a = 5 then 64 else 0) 0 = true
    ∧ Flit.metaLastBit (fun a => if a = 5 then 64 else 0) 0 = false := by
  exact ⟨by decide, by decide, by decide, by decide⟩

theorem specInProgress_append (port lat cs : Nat) (acc : List (Nat × Sw.Token)) (x : Nat × Sw.Token) :
    Sw.specInProgress port lat cs (acc ++ [x]) =
      some (Sw.specPacketOfRun port lat cs (acc ++ [x])) := by
  cases acc <;> rfl

theorem phase1Step_spec (port lat cs : Nat) (acc : List (Nat × Sw.Token))
    (q : List Sw.switchpacket) (i : Nat) (tok : Sw.Token) (hv : tok.valid = true) :
    Sw.phase1Step port lat cs (Sw.specInProgress port lat cs acc, q) i tok =
      if tok.last then (none, q ++ [Sw.specPacketOfRun port lat cs (acc ++ [(i, tok)])])
      else (some (Sw.specPacketOfRun port lat cs (acc ++ [(i, tok)])), q) := by
  cases acc with
  | nil =>
    simp [Sw.phase1Step, Sw.specInProgress, Sw.specPacketOfRun, hv]
  | cons hd tl =>
    obtain ⟨j, u⟩ := hd
    simp [Sw.phase1Step, Sw.specInProgress, Sw.specPacketOfRun, hv]

theorem phase1Go_spec (port lat cs : Nat) :
    ∀ (l : List (Nat × Sw.Token)) (acc : List (Nat × Sw.Token)) (q : List Sw.switchpacket),
    Sw.phase1Go port lat cs l (Sw.specInProgress port lat cs acc, q) =
      (Sw.specInProgress port lat cs (Sw.specRuns acc l).2,
       q ++ ((Sw.specRuns acc l).1.map (Sw.specPacketOfRun port lat cs))) := by
  intro l
  induction l with
  | nil => intro acc q; simp [Sw.phase1Go, Sw.specRuns]
  | cons hd rest ih =>
    intro acc q
    obtain ⟨i, tok⟩ := hd
    by_cases hv : tok.valid = true
    · by_cases hl : tok.last = true
      · rw [Sw.phase1Go, phase1Step_spec port lat cs acc q i tok hv, if_pos hl]
        rw [show (none : Option Sw.switchpacket) = Sw.specInProgress port lat cs [] from rfl]
        rw [ih [] (q ++ [Sw.specPacketOfRun port lat cs (acc ++ [(i, tok)])])]
        simp [Sw.specRuns, hv, hl]
      · rw [Sw.phase1Go, phase1Step_spec port lat cs acc q i tok hv, if_neg hl]
        rw [← specInProgress_append port lat cs acc (i, tok)]
        rw [ih (acc ++ [(i, tok)]) q]
        simp [Sw.specRuns, hv, hl]
    · rw [Sw.phase1Go]
      have hstep : Sw.phase1Step port lat cs (Sw.specInProgress port lat cs acc, q) i tok =
          (Sw.specInProgress port lat cs acc, q) := by
        simp [Sw.phase1Step, hv]
      rw [hstep, ih acc q]
      simp [Sw.specRuns, hv]

/-- C2: phase 1 of `do_fast_switching` performs lossless in-order reassembly
with the specified timestamps: scanning the window in increasing token order
from a fresh state, the inputqueue it produces is exactly the list of closed
runs of valid flits, each packaged as a `switchpacket` whose `timestamp` is
`this_iter_cycles_start + tokenno-of-first-flit + SWITCHLATENCY`, whose `sender`
is the port, whose `dat` holds exactly the run's flits in ingress order with
`amtwritten` incremented once per flit, and the packet is pushed exactly when
its last-bit flit arrives; the trailing unfinished run stays in
`input_in_progress`. -/
theorem c2_phase1_reassembly (input_port_buf : Nat → Nat)
    (NUM_TOKENS port switchlat cyclesStart : Nat) :
    Sw.phase1 port switchlat cyclesStart (Sw.decodeWindow input_port_buf NUM_TOKENS) =
      (Sw.specInProgress port switchlat cyclesStart
        (Sw.specRuns [] (Sw.decodeWindow input_port_buf NUM_TOKENS).enum).2,
       (Sw.specRuns [] (Sw.decodeWindow input_port_buf NUM_TOKENS).enum).1.map
         (Sw.specPacketOfRun port switchlat cyclesStart)) := by
  have h := phase1Go_spec port switchlat cyclesStart
    (Sw.decodeWindow input_port_buf NUM_TOKENS).enum [] []
  simpa [Sw.phase1] using h

theorem phase1CheckedGo_isSome (bound port lat cs : Nat) :
    ∀ (l : List (Nat × Sw.Token)) (st : Option Sw.switchpacket × List Sw.switchpacket),
    (st.1.elim 0 (fun sp => sp.amtwritten)) + (l.filter (fun p => p.2.valid)).length ≤ bound →
    (Sw.phase1CheckedGo bound port lat cs l st).isSome = true := by
  intro l
  induction l with
  | nil => intro st h; simp [Sw.phase1CheckedGo]
  | cons hd rest ih =>
    intro st h
    obtain ⟨i, tok⟩ := hd
    by_cases hv : tok.valid = true
    · have hcnt : ((((i, tok) :: rest).filter (fun p => p.2.valid)).length)
          = (rest.filter (fun p => p.2.valid)).length + 1 := by
        simp [hv]
      rw [hcnt] at h
      cases hst : st.1 with
      | none =>
        rw [hst] at h
        simp only [Option.elim] at h
        rw [Sw.phase1CheckedGo]
        have hb : (0 : Nat) < bound := by omega
        simp only [Sw.phase1CheckedStep, hv, hst, if_true, hb, if_pos]
        split
        · apply ih
          simp
          omega
        · apply ih
          simp
          omega
      | some sp =>
        rw [hst] at h
        simp only [Option.elim] at h
        rw [Sw.phase1CheckedGo]
        have hb : sp.amtwritten < bound := by omega
        simp only [Sw.phase1CheckedStep, hv, hst, if_true, hb, if_pos]
        split
        · apply ih
          simp
          omega
        · apply ih
          simp
          omega
    · have hcnt : ((((i, tok) :: rest).filter (fun p => p.2.valid)).length)
          = (rest.filter (fun p => p.2.valid)).length := by
        simp [hv]
      rw [hcnt] at h
      rw [Sw.phase1CheckedGo]
      simp only [Sw.phase1CheckedStep, hv, if_false]
      exact ih st h

theorem enumFrom_filter_valid (w : List Sw.Token) :
    ∀ n, ((List.enumFrom n w).filter (fun p => p.2.valid)).length
      = (w.filter (fun t => t.valid)).length := by
  induction w with
  | nil => intro n; simp
  | cons t rest ih =>
    intro n
    by_cases hv : t.valid = true <;> simp [List.enumFrom, hv, ih (n+1)]

/-- C10 (amended): whenever a window contains at most
`ETH_MAX_WORDS + ETH_EXTRA_FLITS` valid flits and no reassembly is carried in,
every phase-1 copy into a packet's `dat` happens at an index `amtwritten` below
the allocation bound, i.e. the bounds-checked embedding of the copy never takes
its out-of-bounds branch. -/
theorem c10_reassembly_in_bounds (datBound port switchlat cyclesStart : Nat)
    (input_port_buf : Nat → Nat) (NUM_TOKENS : Nat)
    (h : ((Sw.decodeWindow input_port_buf NUM_TOKENS).filter (fun t => t.valid)).length
      ≤ datBound) :
    (Sw.phase1Checked datBound port switchlat cyclesStart
      (Sw.decodeWindow input_port_buf NUM_TOKENS)).isSome = true := by
  apply phase1CheckedGo_isSome
  simp only [Option.elim]
  rw [show (Sw.decodeWindow input_port_buf NUM_TOKENS).enum
      = List.enumFrom 0 (Sw.decodeWindow input_port_buf NUM_TOKENS) from rfl,
    enumFrom_filter_valid]
  simpa using h

/-- C10 witness: a 15-token window whose buffer has exactly the valid bits of
token ids 0 and 7 set (two valid flits, no last bit) stays within a 2-flit
allocation. -/
theorem c10_reassembly_in_bounds_witness :
    (Sw.phase1Checked 2 0 0 0
      (Sw.decodeWindow (fun a => if a = 5 ∨ a = 69 then 8 else 0) 15)).isSome = true :=
  c10_reassembly_in_bounds 2 0 0 0 (fun a => if a = 5 ∨ a = 69 then 8 else 0) 15 (by decide)

/-- C10 counterexample to the claim as stated: with a `dat` allocation of 2
flits, the buffer whose bytes 5, 69 and 133 are `0x08` presents the three valid,
non-last flits 0, 7 and 14, so phase 1 copies a third flit into the same packet
at index `amtwritten = 2`, outside the allocation — the checked embedding
reaches its out-of-bounds branch, so the claim does not hold for windows of
arbitrary contents. -/
theorem c10_reassembly_counterexample :
    (Sw.phase1Checked 2 0 0 0
      (Sw.decodeWindow (fun a => if a = 5 ∨ a = 69 ∨ a = 133 then 8 else 0) 15)).isSome
      = false := by
  decide

theorem popMinTs_cons_ne_none (p : Sw.switchpacket) (rest : List Sw.switchpacket) :
    Sw.popMinTs (p :: rest) ≠ none := by
  simp only [Sw.popMinTs]
  cases Sw.popMinTs rest with
  | none => simp
  | some mr =>
    obtain ⟨m, r⟩ := mr
    dsimp only
    split <;> simp

theorem popMinTs_spec : ∀ (l : List Sw.switchpacket) (m : Sw.switchpacket)
    (r : List Sw.switchpacket), Sw.popMinTs l = some (m, r) →
    l.Perm (m :: r) ∧ ∀ x ∈ r, m.timestamp ≤ x.timestamp := by
  intro l
  induction l with
  | nil => intro m r h; simp [Sw.popMinTs] at h
  | cons p rest ih =>
    intro m r h
    simp only [Sw.popMinTs] at h
    cases hrec : Sw.popMinTs rest with
    | none =>
      rw [hrec] at h
      have hnil : rest = [] := by
        cases rest with
        | nil => rfl
        | cons a b => exact absurd hrec (popMinTs_cons_ne_none a b)
      subst hnil
      simp only [Option.some.injEq, Prod.mk.injEq] at h
      obtain ⟨h1, h2⟩ := h
      subst h1
      subst h2
      exact ⟨List.Perm.refl _, by simp⟩
    | some mr =>
      obtain ⟨m1, r1⟩ := mr
      rw [hrec] at h
      obtain ⟨hperm1, hmin1⟩ := ih m1 r1 hrec
      dsimp only at h
      split at h <;> rename_i hle <;>
        simp only [Option.some.injEq, Prod.mk.injEq] at h <;>
        obtain ⟨h1, h2⟩ := h <;> subst h1 <;> subst h2
      · refine ⟨List.Perm.refl _, ?_⟩
        intro x hx
        have hx1 := hperm1.mem_iff.mp hx
        rcases List.mem_cons.mp hx1 with rfl | hx2
        · exact hle
        · exact le_trans hle (hmin1 x hx2)
      · constructor
        · exact (List.Perm.cons p hperm1).trans (List.Perm.swap _ _ _)
        · intro x hx
          rcases List.mem_cons.mp hx with rfl | hx2
          · omega
          · exact hmin1 x hx2

theorem popMinTs_length (l : List Sw.switchpacket) (m : Sw.switchpacket)
    (r : List Sw.switchpacket) (h : Sw.popMinTs l = some (m, r)) :
    r.length + 1 = l.length := by
  have := (popMinTs_spec l m r h).1.length_eq
  simpa using this.symm

theorem drainFuel_spec : ∀ (fuel : Nat) (l : List Sw.switchpacket), l.length ≤ fuel →
    (Sw.drainFuel fuel l).Perm l ∧
    List.Pairwise (fun a b => a.timestamp ≤ b.timestamp) (Sw.drainFuel fuel l) := by
  intro fuel
  induction fuel with
  | zero =>
    intro l h
    have : l = [] := by
      cases l with
      | nil => rfl
      | cons a b => simp at h
    subst this
    simp [Sw.drainFuel]
  | succ n ih =>
    intro l h
    rw [Sw.drainFuel]
    cases hl : Sw.popMinTs l with
    | none =>
      have : l = [] := by
        cases l with
        | nil => rfl
        | cons a b => exact absurd hl (popMinTs_cons_ne_none a b)
      subst this
      simp
    | some mr =>
      obtain ⟨m, r⟩ := mr
      obtain ⟨hperm, hmin⟩ := popMinTs_spec l m r hl
      have hlen := popMinTs_length l m r hl
      obtain ⟨ihp, ihs⟩ := ih r (by omega)
      constructor
      · exact (List.Perm.cons m ihp).trans hperm.symm
      · refine List.Pairwise.cons ?_ ihs
        intro b hb
        exact hmin b (ihp.mem_iff.mp hb)

/-- C3: within one invocation of `do_fast_switching`, packets are popped from
the priority queue — and hence routed onto their destination output queues — in
nondecreasing timestamp order: for every set of per-port input queues, the pop
sequence of the routing phase is a permutation of all queued packets sorted
nondecreasingly by `timestamp`, so a packet of strictly smaller timestamp is
always pushed before one of larger timestamp. -/
theorem c3_routing_timestamp_order (inputqueues : List (List Sw.switchpacket)) :
    List.Pairwise (fun a b => a.timestamp ≤ b.timestamp)
      (Sw.drainPQueue inputqueues.flatten)
    ∧ (Sw.drainPQueue inputqueues.flatten).Perm inputqueues.flatten := by
  have h := drainFuel_spec inputqueues.flatten.length inputqueues.flatten (le_refl _)
  exact ⟨h.2, h.1⟩

theorem broadcastLoop_apply (outqs : Nat → List Sw.switchpacket) (tsp : Sw.switchpacket) :
    ∀ (n i : Nat), Sw.broadcastLoop outqs tsp n i =
      if i < n ∧ i ≠ tsp.sender then outqs i ++ [tsp] else outqs i := by
  intro n
  induction n with
  | zero =>
    intro i
    simp [Sw.broadcastLoop]
  | succ k ih =>
    intro i
    rw [Sw.broadcastLoop]
    by_cases hk : k ≠ tsp.sender
    · rw [if_pos hk]
      by_cases hik : i = k
      · subst hik
        simp only [if_pos rfl, ih i]
        split_ifs <;> first | rfl | (exfalso; omega)
      · rw [if_neg hik, ih i]
        split_ifs <;> first | rfl | (exfalso; omega)
    · rw [if_neg hk, ih i]
      split_ifs <;> first | rfl | (exfalso; omega)

/-- C4: a packet whose destination lookup returns the broadcast sentinel is
fanned out by pushing a copy of it (identical `timestamp`, `sender`, `dat`
bytes, `amtwritten`, `amtread`) onto the output queue of exactly the ports
`i < NUMDOWNLINKS + (if NUMUPLINKS > 0 then 1 else 0)` with `i ≠ sender`; every
other port's queue — in particular every uplink other than the first — is left
unchanged. -/
theorem c4_broadcast_fanout (NUMDOWNLINKS NUMUPLINKS : Nat) (mac2port : Nat → Nat)
    (randval : Nat) (outqs : Nat → List Sw.switchpacket) (tsp : Sw.switchpacket) (i : Nat)
    (hb : Flit.get_port_from_flit NUMDOWNLINKS NUMUPLINKS mac2port randval tsp.dat.flatten
      = Flit.BROADCAST_ADJUSTED) :
    Sw.routeOne NUMDOWNLINKS NUMUPLINKS mac2port randval outqs tsp i =
      if i < NUMDOWNLINKS + Sw.ADDUPLINK NUMUPLINKS ∧ i ≠ tsp.sender
      then outqs i ++ [tsp] else outqs i := by
  simp only [Sw.routeOne, hb, if_pos]
  exact broadcastLoop_apply outqs tsp _ i

/-- C4 witness: a broadcast-flagged one-flit packet ingressing on port 0 of a
switch with two downlinks and no uplinks is copied onto port 1's queue. -/
theorem c4_broadcast_fanout_witness :
    Sw.routeOne 2 0 (fun _ => 0) 0 (fun _ => [])
      ⟨5, 0, [[0, 0, 1, 0, 0, 0, 0, 0]], 1, 0⟩ 1
      = [⟨5, 0, [[0, 0, 1, 0, 0, 0, 0, 0]], 1, 0⟩] := by
  have h := c4_broadcast_fanout 2 0 (fun _ => 0) 0 (fun _ => [])
    ⟨5, 0, [[0, 0, 1, 0, 0, 0, 0, 0]], 1, 0⟩ 1 (by decide)
  simpa using h

theorem and_one_eq_testBit (w i : Nat) :
    (w >>> i) &&& 1 = if Nat.testBit w i then 1 else 0 := by
  rw [Nat.and_one_is_mod, Nat.testBit_to_div_mod, Nat.shiftRight_eq_div_pow]
  by_cases h : w / 2 ^ i % 2 = 1 <;> simp [h]
  omega

/-- C5: destination extraction and lookup of `get_port_from_flit`, for any
table mapping the destination MAC-low to a port id at most `NUMDOWNLINKS` (the
any-uplink sentinel), with at least one uplink whenever the sentinel is hit and
`NUMDOWNLINKS + NUMUPLINKS` below the broadcast sentinel: the function returns
`0xffff` exactly when bit 16 of the flit's first little-endian 64-bit word is 1;
otherwise, with `dest_mac_low` the byte-swapped 16-bit field at bits `[48, 64)`,
it returns `mac2port dest_mac_low` when that entry differs from `NUMDOWNLINKS`,
and otherwise a port in the uplink range
`[NUMDOWNLINKS, NUMDOWNLINKS + NUMUPLINKS)`. -/
theorem c5_get_port_from_flit (NUMDOWNLINKS NUMUPLINKS : Nat) (mac2port : Nat → Nat)
    (randval : Nat) (flit_buf : List Nat)
    (hentry : mac2port (Flit.bswap16 ((Flit.leWord64 flit_buf >>> 48) &&& 0xFFFF) &&& 0xFFFF)
      ≤ NUMDOWNLINKS)
    (hrange : NUMDOWNLINKS + NUMUPLINKS < 0xFFFF)
    (hup : mac2port (Flit.bswap16 ((Flit.leWord64 flit_buf >>> 48) &&& 0xFFFF) &&& 0xFFFF)
      = NUMDOWNLINKS → 0 < NUMUPLINKS) :
    (Flit.get_port_from_flit NUMDOWNLINKS NUMUPLINKS mac2port randval flit_buf
        = Flit.BROADCAST_ADJUSTED ↔ Nat.testBit (Flit.leWord64 flit_buf) 16 = true)
    ∧ (Nat.testBit (Flit.leWord64 flit_buf) 16 = false →
        mac2port (Flit.bswap16 ((Flit.leWord64 flit_buf >>> 48) &&& 0xFFFF) &&& 0xFFFF)
          ≠ NUMDOWNLINKS →
        Flit.get_port_from_flit NUMDOWNLINKS NUMUPLINKS mac2port randval flit_buf
          = mac2port (Flit.bswap16 ((Flit.leWord64 flit_buf >>> 48) &&& 0xFFFF) &&& 0xFFFF))
    ∧ (Nat.testBit (Flit.leWord64 flit_buf) 16 = false →
        mac2port (Flit.bswap16 ((Flit.leWord64 flit_buf >>> 48) &&& 0xFFFF) &&& 0xFFFF)
          = NUMDOWNLINKS →
        NUMDOWNLINKS ≤ Flit.get_port_from_flit NUMDOWNLINKS NUMUPLINKS mac2port randval flit_buf
        ∧ Flit.get_port_from_flit NUMDOWNLINKS NUMUPLINKS mac2port randval flit_buf
            < NUMDOWNLINKS + NUMUPLINKS) := by
  cases hbit : Nat.testBit (Flit.leWord64 flit_buf) 16 with
  | true =>
    have hres : Flit.get_port_from_flit NUMDOWNLINKS NUMUPLINKS mac2port randval flit_buf
        = Flit.BROADCAST_ADJUSTED := by
      simp only [Flit.get_port_from_flit, and_one_eq_testBit, hbit]
      norm_num
    refine ⟨by simp [hres], fun hc => by simp at hc, fun hc => by simp at hc⟩
  | false =>
    by_cases hsent : mac2port (Flit.bswap16 ((Flit.leWord64 flit_buf >>> 48) &&& 0xFFFF) &&& 0xFFFF)
        = NUMDOWNLINKS
    · have hNU : 0 < NUMUPLINKS := hup hsent
      have hmod : randval % NUMUPLINKS < NUMUPLINKS := Nat.mod_lt _ hNU
      have hres : Flit.get_port_from_flit NUMDOWNLINKS NUMUPLINKS mac2port randval flit_buf
          = randval % NUMUPLINKS + NUMDOWNLINKS := by
        simp only [Flit.get_port_from_flit, and_one_eq_testBit, hbit]
        norm_num
        intro hc
        exact absurd hsent hc
      refine ⟨?_, ?_, ?_⟩
      · rw [hres]
        simp only [Flit.BROADCAST_ADJUSTED]
        constructor
        · intro hc
          exfalso
          omega
        · intro hc
          simp at hc
      · intro _ hne2
        exact absurd hsent hne2
      · intro _ _
        rw [hres]
        omega
    · have hres : Flit.get_port_from_flit NUMDOWNLINKS NUMUPLINKS mac2port randval flit_buf
          = mac2port (Flit.bswap16 ((Flit.leWord64 flit_buf >>> 48) &&& 0xFFFF) &&& 0xFFFF) := by
        simp only [Flit.get_port_from_flit, and_one_eq_testBit, hbit]
        norm_num
        intro hc
        exact absurd hc hsent
      refine ⟨?_, ?_, ?_⟩
      · rw [hres]
        simp only [Flit.BROADCAST_ADJUSTED]
        constructor
        · intro hc
          exfalso
          omega
        · intro hc
          simp at hc
      · intro _ _
        exact hres
      · intro _ hc
        exact absurd hc hsent

/-- C5 witness: with two downlinks, one uplink and a table sending the zero MAC
to the any-uplink sentinel, a zero flit resolves to the unique uplink port 2. -/
theorem c5_get_port_from_flit_witness :
    2 ≤ Flit.get_port_from_flit 2 1 (fun _ => 2) 5 []
    ∧ Flit.get_port_from_flit 2 1 (fun _ => 2) 5 [] < 3 := by
  have h := c5_get_port_from_flit 2 1 (fun _ => 2) 5 [] (by decide) (by decide)
    (fun _ => by decide)
  exact h.2.2 (by decide) (by decide)

theorem gcd_fuel_eq (fuel : Nat) : ∀ a b : Nat, b < fuel → Nic.gcd_fuel fuel a b = Nat.gcd a b := by
  induction fuel with
  | zero => intro a b h; omega
  | succ n ih =>
    intro a b h
    rw [Nic.gcd_fuel]
    by_cases hb : b = 0
    · subst hb
      simp
    · rw [if_neg hb]
      have hlt : a % b < b := Nat.mod_lt _ (by omega)
      rw [ih b (a % b) (by omega)]
      rw [Nat.gcd_comm b (a % b), ← Nat.gcd_rec, Nat.gcd_comm]

theorem gcd_loop_eq (n d : Nat) : Nic.gcd_loop n d = Nat.gcd n d :=
  gcd_fuel_eq (d + 1) n d (by omega)

/-- C8: under `0 < netbw ≤ MAX_BANDWIDTH = 800` and `netburst < 256`, the
constructor reduces `(netbw, 800)` by their greatest common divisor to
`(rlimit_inc, rlimit_period)` — coprime and satisfying
`rlimit_inc * 800 = rlimit_period * netbw` — and `init()` composes the
`rlimit_settings` register as
`(rlimit_inc << 2*B) | ((rlimit_period - 1) << B) | netburst` with
`B = MAX_BANDWIDTH_BITS = 10`. -/
theorem c8_rlimit_settings (netbw netburst : Nat) (hpos : 0 < netbw)
    (hbw : netbw ≤ Nic.MAX_BANDWIDTH) (hburst : netburst < 256) :
    Nat.Coprime (Nic.simplify_frac netbw Nic.MAX_BANDWIDTH).1
      (Nic.simplify_frac netbw Nic.MAX_BANDWIDTH).2
    ∧ (Nic.simplify_frac netbw Nic.MAX_BANDWIDTH).1 * 800
        = (Nic.simplify_frac netbw Nic.MAX_BANDWIDTH).2 * netbw
    ∧ Nic.rlimit_settings netbw netburst
        = ((Nic.simplify_frac netbw Nic.MAX_BANDWIDTH).1 <<< (2 * 10))
          ||| (((Nic.simplify_frac netbw Nic.MAX_BANDWIDTH).2 - 1) <<< 10)
          ||| netburst := by
  have hg800 : Nic.gcd_loop netbw 800 = Nat.gcd netbw 800 := gcd_loop_eq _ _
  have hgpos : 0 < Nat.gcd netbw 800 := Nat.gcd_pos_of_pos_right _ (by norm_num)
  refine ⟨?_, ?_, rfl⟩
  · simp only [Nic.simplify_frac, Nic.MAX_BANDWIDTH, hg800]
    exact Nat.coprime_div_gcd_div_gcd hgpos
  · simp only [Nic.simplify_frac, Nic.MAX_BANDWIDTH, hg800]
    set g := Nat.gcd netbw 800 with hgdef
    obtain ⟨x, hx⟩ := Nat.gcd_dvd_left netbw 800
    obtain ⟨y, hy⟩ := Nat.gcd_dvd_right netbw 800
    rw [← hgdef] at hx hy
    rw [hx, hy, Nat.mul_div_cancel_left x hgpos, Nat.mul_div_cancel_left y hgpos]
    ring

/-- C8 witness: `netbw = 400`, `netburst = 8` gives `(rlimit_inc, rlimit_period)
= (1, 2)` and register value `(1 << 20) | (1 << 10) | 8`. -/
theorem c8_rlimit_settings_witness :
    Nat.Coprime (Nic.simplify_frac 400 Nic.MAX_BANDWIDTH).1
      (Nic.simplify_frac 400 Nic.MAX_BANDWIDTH).2
    ∧ (Nic.simplify_frac 400 Nic.MAX_BANDWIDTH).1 * 800
        = (Nic.simplify_frac 400 Nic.MAX_BANDWIDTH).2 * 400
    ∧ Nic.rlimit_settings 400 8
        = ((Nic.simplify_frac 400 Nic.MAX_BANDWIDTH).1 <<< (2 * 10))
          ||| (((Nic.simplify_frac 400 Nic.MAX_BANDWIDTH).2 - 1) <<< 10)
          ||| 8 :=
  c8_rlimit_settings 400 8 (by decide) (by decide) (by decide)

/-- C9 (amended): a `+macaddrN=` argument whose value the sscanf call fails to
parse as six colon-separated hex octets makes the constructor print
`INVALID MAC ADDRESS SUPPLIED WITH +macaddrN=` to stderr and continue running
normally — `mac_lendian` is left unchanged and no exit occurs. -/
theorem c9_malformed_mac_continues (st : Nic.CtorState) :
    Nic.macaddrArgStep none st =
      Except.ok { st with stderr_lines :=
        st.stderr_lines ++ ["INVALID MAC ADDRESS SUPPLIED WITH +macaddrN="] } := rfl

/-- C9 counterexample to the claim as stated: on a malformed MAC value the
constructor does not exit with status 1 (it returns normally), refuting
"the process exits with status 1". -/
theorem c9_malformed_mac_counterexample :
    Nic.macaddrArgStep none { mac_lendian := 0, stderr_lines := [] } ≠ Except.error 1 := by
  simp [Nic.macaddrArgStep]

/-- C7: window gating and double-buffer flip of one inner `tick` iteration.
With `t = min(outgoing_count, SIMLATENCY_BT - incoming_count)`: if
`t ≠ SIMLATENCY_BT` the iteration returns `notReady` without issuing any DMA
operation and without changing any state (in particular no sentinel and not
`currentround`) — this is not an error exit; otherwise, when both DMA transfers
report their full `BUF_WIDTH_BITS * SIMLATENCY_BT` byte counts and the peer
sentinel is observed (or loopback), it issues exactly one pull and one push of
`BUF_WIDTH_BITS * SIMLATENCY_BT` bytes each, sets the current read buffer's
sentinel at offset `BUF_BYTES` to 1, clears the current write buffer's sentinel
to 0, and advances `currentround` to `1 - currentround`. -/
theorem c7_tick_window (LINKLATENCY : Nat) (loopback : Bool) (env : Nic.tickenv)
    (st : Nic.nicstate)
    (hround : st.currentround < 2)
    (hpull : env.pull_ret = Nic.BUF_WIDTH_BITS * Nic.SIMLATENCY_BT LINKLATENCY)
    (hpush : env.push_ret = Nic.BUF_WIDTH_BITS * Nic.SIMLATENCY_BT LINKLATENCY)
    (hready : loopback = true ∨ env.peer_ready = true) :
    (min env.outgoing_count (Nic.SIMLATENCY_BT LINKLATENCY - env.incoming_count)
        ≠ Nic.SIMLATENCY_BT LINKLATENCY →
      Nic.tick_iter LINKLATENCY loopback env st = (Nic.tickresult.notReady, st, []))
    ∧ (min env.outgoing_count (Nic.SIMLATENCY_BT LINKLATENCY - env.incoming_count)
        = Nic.SIMLATENCY_BT LINKLATENCY →
      (Nic.tick_iter LINKLATENCY loopback env st).1 = Nic.tickresult.advanced
      ∧ (Nic.tick_iter LINKLATENCY loopback env st).2.2 =
          [Nic.dmaop.pull (Nic.BUF_WIDTH_BITS * Nic.SIMLATENCY_BT LINKLATENCY),
           Nic.dmaop.push (Nic.BUF_WIDTH_BITS * Nic.SIMLATENCY_BT LINKLATENCY)]
      ∧ (Nic.tick_iter LINKLATENCY loopback env st).2.1.pcis_read_bufs st.currentround
          (Nic.BUF_BYTES LINKLATENCY) = 1
      ∧ (Nic.tick_iter LINKLATENCY loopback env st).2.1.pcis_write_bufs st.currentround
          (Nic.BUF_BYTES LINKLATENCY) = 0
      ∧ (Nic.tick_iter LINKLATENCY loopback env st).2.1.currentround
          = 1 - st.currentround) := by
  constructor
  · intro hne
    simp only [Nic.tick_iter, if_pos hne]
  · intro heq
    have hpull2 : ¬(env.pull_ret ≠
        min env.outgoing_count (Nic.SIMLATENCY_BT LINKLATENCY - env.incoming_count)
          * Nic.BUF_WIDTH_BITS) := by
      rw [heq, hpull]
      simp [Nat.mul_comm]
    have hpush2 : ¬(env.push_ret ≠
        min env.outgoing_count (Nic.SIMLATENCY_BT LINKLATENCY - env.incoming_count)
          * Nic.BUF_WIDTH_BITS) := by
      rw [heq, hpush]
      simp [Nat.mul_comm]
    have hblock : ¬(¬ loopback ∧ env.peer_ready = false) := by
      rcases hready with h | h <;> simp [h]
    simp only [Nic.tick_iter, if_neg (by rw [heq]; simp : ¬(min env.outgoing_count
      (Nic.SIMLATENCY_BT LINKLATENCY - env.incoming_count) ≠ Nic.SIMLATENCY_BT LINKLATENCY)),
      if_neg hpull2, if_neg hblock, if_neg hpush2]
    rw [heq]
    refine ⟨trivial, rfl, ?_, ?_, ?_⟩ <;>
      first
        | rfl
        | omega
        | simp

/-- C7 witness: with `LINKLATENCY = 2` (so `SIMLATENCY_BT = 2`), a full window
on both sides, full 128-byte DMA transfers and a ready peer, one iteration
advances: it reports both DMA operations, sets the read sentinel, clears the
write sentinel and flips `currentround` from 0 to 1. -/
theorem c7_tick_window_witness :
    (Nic.tick_iter 2 false ⟨2, 0, fun _ => 0, 128, 128, true⟩
      ⟨0, fun _ _ => 0, fun _ _ => 0⟩).1 = Nic.tickresult.advanced
    ∧ (Nic.tick_iter 2 false ⟨2, 0, fun _ => 0, 128, 128, true⟩
      ⟨0, fun _ _ => 0, fun _ _ => 0⟩).2.2 = [Nic.dmaop.pull 128, Nic.dmaop.push 128]
    ∧ (Nic.tick_iter 2 false ⟨2, 0, fun _ => 0, 128, 128, true⟩
      ⟨0, fun _ _ => 0, fun _ _ => 0⟩).2.1.pcis_read_bufs 0 128 = 1
    ∧ (Nic.tick_iter 2 false ⟨2, 0, fun _ => 0, 128, 128, true⟩
      ⟨0, fun _ _ => 0, fun _ _ => 0⟩).2.1.pcis_write_bufs 0 128 = 0
    ∧ (Nic.tick_iter 2 false ⟨2, 0, fun _ => 0, 128, 128, true⟩
      ⟨0, fun _ _ => 0, fun _ _ => 0⟩).2.1.currentround = 1 := by
  have h := (c7_tick_window 2 false ⟨2, 0, fun _ => 0, 128, 128, true⟩
    ⟨0, fun _ _ => 0, fun _ _ => 0⟩ (by decide) (by decide) (by decide) (Or.inr rfl)).2 (by decide)
  exact ⟨h.1, h.2.1, h.2.2.1, h.2.2.2.1, h.2.2.2.2⟩
